import Mathlib

/-!
# Verification of `pkg/resource/resource.go` (lumi resource graph cloner)

This file is a shallow embedding of the resource snapshot code in
`pkg/resource/resource.go`: the recursive graph cloner
(`cloneObjectProperty`, `cloneObjectProperties`, `cloneObject`), the
once-only identity setters on `resource` (`SetID`, `SetURN`), and the
random hex identifier generator (`NewUniqueHex`).

Modelling conventions:
* Runtime objects (`rt.Object`) are modelled by the inductive `RTObject`.
  Go pointer identity is modelled by a surrogate key `oid : Nat`: two
  runtime objects are "the same object" exactly when their `oid`s agree,
  and the dependency context (`ctx.ObjURN`, a map keyed by object
  identity) is keyed by `oid`.
* The `resobj` parameter of `cloneObjectProperty` is used by the source
  only for pointer comparisons (`comp.Sources[0] == resobj`,
  `src != resobj`) and in diagnostic messages, so it is passed as its
  surrogate identity `resoid : Nat`.
* `contract.Assert`/`contract.Assertf` failures abort the process; they
  are modelled as `Except.error` with a `CloneErr` describing which
  assertion fired.  The "skip this property" result (`ok == false` in Go,
  used for function-typed values) is modelled as `Except.ok none`.
* Go `map`s that the code only ever reads through ordered iteration or
  point lookups are modelled as association lists; `props.Stable()`
  iteration order is the list order.
* Go `float64` property payloads are modelled by `Int`: no claim depends
  on floating-point arithmetic, only on which payload is wrapped.
* Go strings sliced byte-wise (`NewUniqueHex`) are modelled as `List Char`.
-/

/-- The declared type (`symbols.Type`) of a runtime object, flattened to the
cases the cloner's dispatch distinguishes: `classT true` is a class type for
which `predef.IsResourceType` holds, `classT false` any other class;
`computedT e` is `*symbols.ComputedType` with `Element = e`; `otherT` stands
for any type recognized by none of the dispatch arms. -/
inductive RTType : Type where
  | nullT : RTType
  | boolT : RTType
  | numberT : RTType
  | stringT : RTType
  | objectT : RTType
  | dynamicT : RTType
  | arrayT : RTType
  | mapT : RTType
  | classT (isRes : Bool) : RTType
  | computedT (elem : RTType) : RTType
  | functionT : RTType
  | otherT : RTType
deriving DecidableEq, Repr

/-- A runtime object (`rt.Object`).  `oid` is the surrogate identity key;
`ty` its declared type; `bval`/`nval`/`sval` the payloads returned by
`BoolValue()`/`NumberValue()`/`StringValue()`; `props` the stable-ordered
key/value container returned by `PropertyValues()`; `arr` the element
sequence returned by `ArrayValue()`; `cexpr`/`csrcs` the fields
`Expr`/`Sources` of `ComputedValue()`, sources given by object identity. -/
inductive RTObject : Type where
  | mk (oid : Nat) (ty : RTType) (bval : Bool) (nval : Int) (sval : String)
      (props : List (String × RTObject)) (arr : List RTObject)
      (cexpr : Bool) (csrcs : List Nat) : RTObject

namespace RTObject

def oid : RTObject → Nat
  | .mk i _ _ _ _ _ _ _ _ => i

def ty : RTObject → RTType
  | .mk _ t _ _ _ _ _ _ _ => t

def bval : RTObject → Bool
  | .mk _ _ b _ _ _ _ _ _ => b

def nval : RTObject → Int
  | .mk _ _ _ n _ _ _ _ _ => n

def sval : RTObject → String
  | .mk _ _ _ _ s _ _ _ _ => s

def props : RTObject → List (String × RTObject)
  | .mk _ _ _ _ _ p _ _ _ => p

def arr : RTObject → List RTObject
  | .mk _ _ _ _ _ _ a _ _ => a

def cexpr : RTObject → Bool
  | .mk _ _ _ _ _ _ _ e _ => e

def csrcs : RTObject → List Nat
  | .mk _ _ _ _ _ _ _ _ s => s

end RTObject

/-- Modelled from the spec: the `PropertyValue` tagged union produced by the
cloner (its constructors `NewNullProperty`, `NewBoolProperty`,
`NewNumberProperty`, `NewStringProperty`, `NewArrayProperty`,
`NewObjectProperty`, `NewResourceProperty`, `MakeComputed`, `MakeOutput`
live outside `src/`; per the spec each simply wraps its payload).  A
property map is an association list in stable key order. -/
inductive PropertyValue : Type where
  | null : PropertyValue
  | bool (b : Bool) : PropertyValue
  | number (n : Int) : PropertyValue
  | string (s : String) : PropertyValue
  | array (elems : List PropertyValue) : PropertyValue
  | object (m : List (String × PropertyValue)) : PropertyValue
  | resource (urn : String) : PropertyValue
  | computed (underlying : PropertyValue) (dependsOn : List String) : PropertyValue
  | output (underlying : PropertyValue) : PropertyValue

/-- The dependency context: `ctx.ObjURN`, a read-only map from runtime-object
identity to the resource's URN (stable name), modelled as an association
list keyed by `oid`. -/
structure Context : Type where
  ObjURN : List (Nat × String)

/-- Point lookup `ctx.ObjURN[obj]` (by object identity). -/
def Context.lookupURN (ctx : Context) (oid : Nat) : Option String :=
  (ctx.ObjURN.find? (fun p => p.fst = oid)).map Prod.snd

/-- The fatal `contract.Assertf` conditions `cloneObjectProperty` can hit:
a resource reference missing from `ctx.ObjURN` (line 189), a computed
dependency source missing from `ctx.ObjURN` (line 250, carrying the owner's
and the source's identities), and the unrecognized-property-type assertion
(line 283, carrying the offending type). -/
inductive CloneErr : Type where
  | missingObjectRef (oid : Nat) : CloneErr
  | missingComputedRef (resoid srcoid : Nat) : CloneErr
  | unrecognizedType (ty : RTType) : CloneErr
deriving DecidableEq, Repr

/-- The URN-collection loop of `cloneObjectProperty` (lines 245-254): for
every computed source that is not the owner object itself, look up its URN,
failing fatally when the mapping is absent. -/
def collectURNs (ctx : Context) (resoid : Nat) : List Nat → Except CloneErr (List String)
  | [] => .ok []
  | src :: rest =>
    if src = resoid then
      collectURNs ctx resoid rest
    else
      match ctx.lookupURN src with
      | none => .error (.missingComputedRef resoid src)
      | some urn => (collectURNs ctx resoid rest).map (fun urns => urn :: urns)

mutual

/-- `cloneObjectProperty` (lines 182-285): creates a single property value
out of a runtime object.  `.ok none` models the `(PropertyValue{}, false)`
"skip" result for function-typed values; `.error` models a fatal
`contract.Assertf`.  `resoid` is the identity of the `resobj` argument.
Note that the array arm passes the array object itself (its identity `oid`)
as the owner for element clones, exactly as line 214 does. -/
def cloneObjectProperty (ctx : Context) (resoid : Nat) (obj : RTObject) :
    Except CloneErr (Option PropertyValue) :=
  match obj with
  -- predef.IsResourceType(t): serialize resource references as URNs.
  | .mk oid (.classT true) _ _ _ _ _ _ _ =>
    match ctx.lookupURN oid with
    | some urn => .ok (some (.resource urn))
    | none => .error (.missingObjectRef oid)
  -- switch t: primitive types.
  | .mk _ .nullT _ _ _ _ _ _ _ => .ok (some .null)
  | .mk _ .boolT b _ _ _ _ _ _ => .ok (some (.bool b))
  | .mk _ .numberT _ n _ _ _ _ _ => .ok (some (.number n))
  | .mk _ .stringT _ _ s _ _ _ _ => .ok (some (.string s))
  | .mk _ .objectT _ _ _ props _ _ _ =>
    (cloneObjectProperties ctx resoid props).map (fun r => some (.object r))
  | .mk _ .dynamicT _ _ _ props _ _ _ =>
    (cloneObjectProperties ctx resoid props).map (fun r => some (.object r))
  -- switch t.(type): arrays, maps, and object instances.
  | .mk oid .arrayT _ _ _ _ arr _ _ =>
    (cloneArrayElems ctx oid arr).map (fun r => some (.array r))
  | .mk _ .mapT _ _ _ props _ _ _ =>
    (cloneObjectProperties ctx resoid props).map (fun r => some (.object r))
  | .mk _ (.classT false) _ _ _ props _ _ _ =>
    (cloneObjectProperties ctx resoid props).map (fun r => some (.object r))
  -- if t.Computed(): classify, then build a zero-value placeholder.
  | .mk _ (.computedT fut) _ _ _ _ _ cexpr csrcs =>
    let outprop : Bool :=
      !cexpr && csrcs.length == 1 && csrcs.head? == some resoid
    let makeProperty : Except CloneErr (PropertyValue → PropertyValue) :=
      if outprop then
        .ok (fun v => .output v)
      else
        (collectURNs ctx resoid csrcs).map (fun urns v => .computed v urns)
    makeProperty.bind (fun mk =>
      match fut with
      | .nullT => .ok (some (mk .null))
      | .boolT => .ok (some (mk (.bool false)))
      | .numberT => .ok (some (mk (.number 0)))
      | .stringT => .ok (some (mk (.string "")))
      | .objectT => .ok (some (mk (.object [])))
      | .dynamicT => .ok (some (mk (.object [])))
      | .arrayT => .ok (some (mk (.array [])))
      | .classT _ => .ok (some (mk (.object [])))
      -- any other eventual type falls through to the final assertion,
      -- reporting the full computed type.
      | _ => .error (.unrecognizedType (.computedT fut)))
  -- functions are safely skipped; anything else is unexpected.
  | .mk _ .functionT _ _ _ _ _ _ _ => .ok none
  | .mk _ .otherT _ _ _ _ _ _ _ => .error (.unrecognizedType .otherT)

/-- The element loop of the array arm (lines 211-217): clone each element in
sequence order, dropping elements whose clone reports "skip"; a fatal error
from any element aborts the whole clone.  `resoid` here is the identity of
the array object, as passed at line 214. -/
def cloneArrayElems (ctx : Context) (resoid : Nat) (elems : List RTObject) :
    Except CloneErr (List PropertyValue) :=
  match elems with
  | [] => .ok []
  | e :: rest =>
    (cloneObjectProperty ctx resoid e).bind (fun v? =>
      (cloneArrayElems ctx resoid rest).map (fun restv =>
        match v? with
        | some v => v :: restv
        | none => restv))

/-- `cloneObjectProperties` (lines 288-297): walk the object's properties in
stable order and serialize each, omitting the key when the property reports
"skip". -/
def cloneObjectProperties (ctx : Context) (resoid : Nat)
    (props : List (String × RTObject)) :
    Except CloneErr (List (String × PropertyValue)) :=
  match props with
  | [] => .ok []
  | (k, o) :: rest =>
    (cloneObjectProperty ctx resoid o).bind (fun v? =>
      (cloneObjectProperties ctx resoid rest).map (fun restm =>
        match v? with
        | some v => (k, v) :: restm
        | none => restm))

end

/-- `cloneObject` (lines 174-178): creates a property map out of a runtime
object by cloning its stable-ordered property container. -/
def cloneObject (ctx : Context) (resoid : Nat) (obj : RTObject) :
    Except CloneErr (List (String × PropertyValue)) :=
  cloneObjectProperties ctx resoid obj.props

/-- `cloneResource` (lines 167-169): clone a resource's runtime object with
the resource itself as the owner. -/
def cloneResource (ctx : Context) (resobj : RTObject) :
    Except CloneErr (List (String × PropertyValue)) :=
  cloneObject ctx resobj.oid resobj

/-- The zero-value placeholder switch over the computed type's `Element`
(lines 260-278), as a standalone function: `none` means the eventual type is
matched by no arm, so control falls through to the final assertion. -/
def zeroPlaceholder : RTType → Option PropertyValue
  | .nullT => some .null
  | .boolT => some (.bool false)
  | .numberT => some (.number 0)
  | .stringT => some (.string "")
  | .objectT => some (.object [])
  | .dynamicT => some (.object [])
  | .arrayT => some (.array [])
  | .classT _ => some (.object [])
  | _ => none

/-- The failure raised by `contract.Requiref` in `SetID`/`SetURN` when the
field is already assigned. -/
inductive AssignErr : Type where
  | alreadyAssigned : AssignErr
deriving DecidableEq, Repr

/-- The `resource` struct (lines 91-97).  `ID` and `URN` are string
newtypes in the source and are modelled as `String`. -/
structure resource : Type where
  id : String
  urn : String
  t : String
  inputs : List (String × PropertyValue)
  outputs : List (String × PropertyValue)

/-- `HasID` (line 105): the resource has been assigned an ID. -/
def resource.HasID (r : resource) : Bool :=
  r.id != ""

/-- `HasURN` (line 112): the resource has been assigned a URN. -/
def resource.HasURN (r : resource) : Bool :=
  r.urn != ""

/-- `SetID` (lines 106-110): `contract.Requiref(!r.HasID(), ...)` then
assign; the failed precondition is modelled as an `AssignErr`. -/
def resource.SetID (r : resource) (id : String) : Except AssignErr resource :=
  if r.HasID then .error .alreadyAssigned
  else .ok { r with id := id }

/-- `SetURN` (lines 113-116): `contract.Requiref(!r.HasURN(), ...)` then
assign. -/
def resource.SetURN (r : resource) (m : String) : Except AssignErr resource :=
  if r.HasURN then .error .alreadyAssigned
  else .ok { r with urn := m }

/-- One lowercase hex digit, as produced by Go's `hex.EncodeToString`
(`"0123456789abcdef"`). -/
def hexDigit (d : Nat) : Char :=
  if d < 10 then Char.ofNat (48 + d) else Char.ofNat (97 + (d - 10))

/-- `hex.EncodeToString`: each byte becomes its high then its low hex
digit.  Strings are modelled as `List Char` since `NewUniqueHex` slices
byte-wise. -/
def hexEncodeToString : List Nat → List Char
  | [] => []
  | b :: rest => hexDigit (b / 16) :: hexDigit (b % 16) :: hexEncodeToString rest

/-- `NewUniqueHex` (lines 301-312).  `pfx` models the `prefix` argument;
`bs` models the `randlen` random bytes delivered by `rand.Read` (so
`randlen = bs.length`; the source's assertions that the read succeeded and
filled the buffer always hold in this model).  The hex encoding is appended
to the prefix and the result truncated to `maxlen` when longer. -/
def NewUniqueHex (pfx : List Char) (bs : List Nat) (maxlen : Nat) : List Char :=
  let str := pfx ++ hexEncodeToString bs
  if str.length > maxlen then str.take maxlen else str

/-! ## Helper lemmas -/

/-- The boolean output-property test at line 236 holds exactly when the value
is not an expression and its blocking-source sequence is the single owner. -/
lemma outprop_true_iff (cexpr : Bool) (csrcs : List Nat) (ro : Nat) :
    (!cexpr && csrcs.length == 1 && csrcs.head? == some ro) = true ↔
      cexpr = false ∧ csrcs = [ro] := by
  match csrcs with
  | [] => simp
  | [a] => simp [Bool.and_assoc]
  | a :: b :: rest => simp

/-- When every non-owner source has a URN, the collection loop succeeds and
returns the looked-up URNs of the non-owner sources in source order. -/
lemma collectURNs_all_present (ctx : Context) (ro : Nat) (srcs : List Nat)
    (h : ∀ s ∈ srcs, s ≠ ro → (ctx.lookupURN s).isSome) :
    collectURNs ctx ro srcs =
      .ok ((srcs.filter (fun s => s != ro)).filterMap ctx.lookupURN) := by
  induction srcs with
  | nil => rfl
  | cons a rest ih =>
    by_cases ha : a = ro
    · subst ha
      simp only [collectURNs, if_pos rfl, List.filter_cons]
      simp [ih (fun s hs => h s (List.mem_cons_of_mem _ hs))]
    · obtain ⟨urn, hu⟩ := Option.isSome_iff_exists.mp (h a (List.mem_cons_self _ _) ha)
      simp only [collectURNs, if_neg ha, hu,
        ih (fun s hs => h s (List.mem_cons_of_mem _ hs)), Except.map,
        List.filter_cons, List.filterMap_cons]
      simp [ha, hu]

/-- When some non-owner source has no URN, the collection loop hits the
missing-computed-reference assertion. -/
lemma collectURNs_missing (ctx : Context) (ro : Nat) (srcs : List Nat) (s₀ : Nat)
    (h₀ : s₀ ∈ srcs) (hne : s₀ ≠ ro) (hn : ctx.lookupURN s₀ = none) :
    ∃ s, s ∈ srcs ∧ s ≠ ro ∧ ctx.lookupURN s = none ∧
      collectURNs ctx ro srcs = .error (.missingComputedRef ro s) := by
  induction srcs with
  | nil => cases h₀
  | cons a rest ih =>
    by_cases ha : a = ro
    · subst ha
      have h₀' : s₀ ∈ rest := by
        cases List.mem_cons.mp h₀ with
        | inl h => exact absurd h hne
        | inr h => exact h
      obtain ⟨s, hs, hsr, hsn, hc⟩ := ih h₀'
      exact ⟨s, List.mem_cons_of_mem _ hs, hsr, hsn, by
        simp only [collectURNs, if_pos rfl]; exact hc⟩
    · cases hu : ctx.lookupURN a with
      | none =>
        refine ⟨a, List.mem_cons_self _ _, ha, hu, ?_⟩
        simp only [collectURNs, if_neg ha, hu]
      | some urn =>
        have h₀' : s₀ ∈ rest := by
          cases List.mem_cons.mp h₀ with
          | inl h => subst h; rw [hu] at hn; cases hn
          | inr h => exact h
        obtain ⟨s, hs, hsr, hsn, hc⟩ := ih h₀'
        refine ⟨s, List.mem_cons_of_mem _ hs, hsr, hsn, ?_⟩
        simp only [collectURNs, if_neg ha, hu, hc, Except.map]

/-- A successful URN collection means every non-owner source was mapped, and
the result is exactly the non-owner URNs in source order. -/
lemma collectURNs_ok_inv (ctx : Context) (ro : Nat) (srcs : List Nat)
    (urns : List String) (h : collectURNs ctx ro srcs = .ok urns) :
    (∀ s ∈ srcs, s ≠ ro → (ctx.lookupURN s).isSome) ∧
      urns = (srcs.filter (fun s => s != ro)).filterMap ctx.lookupURN := by
  have hall : ∀ s ∈ srcs, s ≠ ro → (ctx.lookupURN s).isSome := by
    intro s hs hsr
    cases hu : ctx.lookupURN s with
    | none =>
      obtain ⟨s', _, _, _, hc⟩ := collectURNs_missing ctx ro srcs s hs hsr hu
      rw [hc] at h; cases h
    | some urn => simp
  refine ⟨hall, ?_⟩
  rw [collectURNs_all_present ctx ro srcs hall] at h
  exact (Except.ok.injEq _ _ ▸ h.symm)

/-- The computed arm of `cloneObjectProperty` (lines 230-279) factored
through `zeroPlaceholder`: classify, resolve dependencies when classified
computed, then wrap the zero placeholder, falling through to the
unrecognized-type assertion for an unmatched eventual type. -/
lemma cloneComputed_eq (ctx : Context) (ro : Nat) (oid : Nat) (fut : RTType)
    (bv : Bool) (nv : Int) (sv : String) (props : List (String × RTObject))
    (arr : List RTObject) (cexpr : Bool) (csrcs : List Nat) :
    cloneObjectProperty ctx ro (.mk oid (.computedT fut) bv nv sv props arr cexpr csrcs) =
      (if (!cexpr && csrcs.length == 1 && csrcs.head? == some ro) = true then
        Except.ok (fun v => PropertyValue.output v)
      else
        (collectURNs ctx ro csrcs).map (fun urns v => PropertyValue.computed v urns)).bind
        (fun mkp =>
          match zeroPlaceholder fut with
          | some z => .ok (some (mkp z))
          | none => .error (.unrecognizedType (.computedT fut))) := by
  cases fut <;> rfl

/-- Whatever wrapper the computed arm produces, the wrapped value is the
zero placeholder of the eventual type. -/
lemma cloneComputed_underlying (ctx : Context) (ro : Nat) (oid : Nat) (fut : RTType)
    (bv : Bool) (nv : Int) (sv : String) (props : List (String × RTObject))
    (arr : List RTObject) (cexpr : Bool) (csrcs : List Nat) (u : PropertyValue)
    (h : cloneObjectProperty ctx ro (.mk oid (.computedT fut) bv nv sv props arr cexpr csrcs)
           = .ok (some (.output u)) ∨
         ∃ d, cloneObjectProperty ctx ro (.mk oid (.computedT fut) bv nv sv props arr cexpr csrcs)
           = .ok (some (.computed u d))) :
    zeroPlaceholder fut = some u := by
  rw [cloneComputed_eq] at h
  by_cases hc : (!cexpr && csrcs.length == 1 && csrcs.head? == some ro) = true
  · rw [if_pos hc] at h
    cases hz : zeroPlaceholder fut with
    | none =>
      simp only [hz, Except.bind] at h
      rcases h with h | ⟨d, h⟩ <;> cases h
    | some z =>
      simp only [hz, Except.bind] at h
      rcases h with h | ⟨d, h⟩
      · simp only [Except.ok.injEq, Option.some.injEq, PropertyValue.output.injEq] at h
        rw [h]
      · simp only [Except.ok.injEq, Option.some.injEq] at h
        cases h
  · rw [if_neg hc] at h
    cases hcol : collectURNs ctx ro csrcs with
    | error e =>
      simp only [hcol, Except.map, Except.bind] at h
      rcases h with h | ⟨d, h⟩ <;> cases h
    | ok urns =>
      simp only [hcol, Except.map, Except.bind] at h
      cases hz : zeroPlaceholder fut with
      | none =>
        simp only [hz] at h
        rcases h with h | ⟨d, h⟩ <;> cases h
      | some z =>
        simp only [hz] at h
        rcases h with h | ⟨d, h⟩
        · simp only [Except.ok.injEq, Option.some.injEq] at h; cases h
        · simp only [Except.ok.injEq, Option.some.injEq, PropertyValue.computed.injEq] at h
          rw [h.1]

/-- A function-typed value is skipped, not serialized (lines 281-284). -/
lemma cloneObjectProperty_function (ctx : Context) (ro : Nat) (obj : RTObject)
    (h : obj.ty = .functionT) : cloneObjectProperty ctx ro obj = .ok none := by
  cases obj with
  | mk oid ty bv nv sv props arr ce cs =>
    simp only [RTObject.ty] at h
    subst h
    rfl

/-- A bool-typed value serializes to its boolean payload (line 198). -/
lemma cloneObjectProperty_bool (ctx : Context) (ro : Nat) (obj : RTObject)
    (h : obj.ty = .boolT) :
    cloneObjectProperty ctx ro obj = .ok (some (.bool obj.bval)) := by
  cases obj with
  | mk oid ty bv nv sv props arr ce cs =>
    simp only [RTObject.ty] at h
    subst h
    rfl

/-- A string-typed value serializes to its string payload (line 202). -/
lemma cloneObjectProperty_string (ctx : Context) (ro : Nat) (obj : RTObject)
    (h : obj.ty = .stringT) :
    cloneObjectProperty ctx ro obj = .ok (some (.string obj.sval)) := by
  cases obj with
  | mk oid ty bv nv sv props arr ce cs =>
    simp only [RTObject.ty] at h
    subst h
    rfl

/-- The keys of a successfully cloned property map form a sublist of the
source keys: source stable order is preserved, keys are only dropped. -/
lemma cloneProps_keys_sublist (ctx : Context) (ro : Nat)
    (props : List (String × RTObject)) (m : List (String × PropertyValue))
    (h : cloneObjectProperties ctx ro props = .ok m) :
    List.Sublist (m.map Prod.fst) (props.map Prod.fst) := by
  induction props generalizing m with
  | nil =>
    simp only [cloneObjectProperties, Except.ok.injEq] at h
    subst h
    simp
  | cons p rest ih =>
    obtain ⟨k, o⟩ := p
    simp only [cloneObjectProperties] at h
    cases h₁ : cloneObjectProperty ctx ro o with
    | error e => rw [h₁] at h; cases h
    | ok v? =>
      rw [h₁] at h
      cases h₂ : cloneObjectProperties ctx ro rest with
      | error e => rw [h₂] at h; cases h
      | ok restm =>
        rw [h₂] at h
        simp only [Except.bind, Except.map, Except.ok.injEq] at h
        cases v? with
        | none =>
          subst h
          exact (ih restm h₂).trans (List.sublist_cons_self _ _)
        | some v =>
          subst h
          simpa using List.Sublist.cons₂ k (ih restm h₂)

/-- A key whose value serializes is present in the cloned map with exactly
that serialization. -/
lemma cloneProps_mem (ctx : Context) (ro : Nat)
    (props : List (String × RTObject)) (m : List (String × PropertyValue))
    (k : String) (o : RTObject) (v : PropertyValue)
    (hmem : (k, o) ∈ props)
    (hv : cloneObjectProperty ctx ro o = .ok (some v))
    (h : cloneObjectProperties ctx ro props = .ok m) :
    (k, v) ∈ m := by
  induction props generalizing m with
  | nil => cases hmem
  | cons p rest ih =>
    obtain ⟨k', o'⟩ := p
    simp only [cloneObjectProperties] at h
    cases h₁ : cloneObjectProperty ctx ro o' with
    | error e => rw [h₁] at h; cases h
    | ok v? =>
      rw [h₁] at h
      cases h₂ : cloneObjectProperties ctx ro rest with
      | error e => rw [h₂] at h; cases h
      | ok restm =>
        rw [h₂] at h
        simp only [Except.bind, Except.map, Except.ok.injEq] at h
        rcases List.mem_cons.mp hmem with heq | hmem'
        · rw [Prod.mk.injEq] at heq
          obtain ⟨rfl, rfl⟩ := heq
          rw [hv] at h₁
          injection h₁ with h₁'
          subst h₁'
          subst h
          exact List.mem_cons_self _ _
        · have hrest := ih restm hmem' h₂
          cases v? with
          | none => subst h; exact hrest
          | some w => subst h; exact List.mem_cons_of_mem _ hrest

/-- A key bound to a function-typed value is absent from the cloned map
(assuming the source keys are distinct, as Go map keys are). -/
lemma cloneProps_fn_absent (ctx : Context) (ro : Nat)
    (props : List (String × RTObject)) (m : List (String × PropertyValue))
    (k : String) (o : RTObject)
    (hnd : (props.map Prod.fst).Nodup)
    (hmem : (k, o) ∈ props) (hfn : o.ty = .functionT)
    (h : cloneObjectProperties ctx ro props = .ok m) :
    k ∉ m.map Prod.fst := by
  induction props generalizing m with
  | nil => cases hmem
  | cons p rest ih =>
    obtain ⟨k', o'⟩ := p
    simp only [List.map_cons, List.nodup_cons] at hnd
    simp only [cloneObjectProperties] at h
    cases h₁ : cloneObjectProperty ctx ro o' with
    | error e => rw [h₁] at h; cases h
    | ok v? =>
      rw [h₁] at h
      cases h₂ : cloneObjectProperties ctx ro rest with
      | error e => rw [h₂] at h; cases h
      | ok restm =>
        rw [h₂] at h
        simp only [Except.bind, Except.map, Except.ok.injEq] at h
        rcases List.mem_cons.mp hmem with heq | hmem'
        · rw [Prod.mk.injEq] at heq
          obtain ⟨rfl, rfl⟩ := heq
          rw [cloneObjectProperty_function ctx ro o hfn] at h₁
          injection h₁ with h₁'
          subst h₁'
          subst h
          intro hk
          exact hnd.1 ((cloneProps_keys_sublist ctx ro rest restm h₂).subset hk)
        · have hk : k ∈ rest.map Prod.fst :=
            List.mem_map.mpr ⟨(k, o), hmem', rfl⟩
          have hne : k' ≠ k := fun he => hnd.1 (he ▸ hk)
          have hrest := ih restm hnd.2 hmem' h₂
          cases v? with
          | none => subst h; exact hrest
          | some w =>
            subst h
            simp only [List.map_cons, List.mem_cons]
            rintro (rfl | hin)
            · exact hne rfl
            · exact hrest hin

/-- Removing a function-typed element from an array does not change the
cloned element sequence: function elements are skipped without error. -/
lemma cloneArrayElems_fn (ctx : Context) (r : Nat) (el₁ el₂ : List RTObject)
    (fobj : RTObject) (hf : fobj.ty = .functionT) :
    cloneArrayElems ctx r (el₁ ++ fobj :: el₂) = cloneArrayElems ctx r (el₁ ++ el₂) := by
  induction el₁ with
  | nil =>
    simp only [List.nil_append, cloneArrayElems,
      cloneObjectProperty_function ctx r fobj hf, Except.bind]
    cases cloneArrayElems ctx r el₂ <;> rfl
  | cons e el₁ ih =>
    simp only [List.cons_append, cloneArrayElems, List.append_eq, ih]

/-! ## Claim theorems -/

/-- C1: the claim says the owner object is threaded unchanged through
recursive cloning, so that a computed array element whose only blocking
source is the resource being cloned is classified Output just like a direct
property.  The code instead passes the array object itself as the owner for
element clones (line 214), so with resource identity 1 not yet in the
context, cloning the array property aborts with the missing-computed-
reference assertion, while the very same computed value cloned as a direct
property of the resource yields `Output(String(""))`; with the resource's
URN present, the element is still classified Computed, depending on its own
owner. -/
theorem array_element_owner_not_threaded :
    cloneObjectProperty ⟨[]⟩ 1
        (.mk 2 .arrayT false 0 "" []
          [.mk 3 (.computedT .stringT) false 0 "" [] [] false [1]] false [])
      = .error (.missingComputedRef 2 1) ∧
    cloneObjectProperty ⟨[]⟩ 1 (.mk 3 (.computedT .stringT) false 0 "" [] [] false [1])
      = .ok (some (.output (.string ""))) ∧
    cloneObjectProperty ⟨[(1, "urn-r")]⟩ 1
        (.mk 2 .arrayT false 0 "" []
          [.mk 3 (.computedT .stringT) false 0 "" [] [] false [1]] false [])
      = .ok (some (.array [.computed (.string "") ["urn-r"]])) :=
  ⟨rfl, rfl, rfl⟩

/-- C2: when a computed value is cloned with owner identity `ro` (a direct
property of the resource with that identity), a successful clone yields an
Output wrapper exactly when the value is not an expression and its blocking
sources are the single element `ro`; in every other successful case it
yields a Computed wrapper. -/
theorem computed_direct_property_output_iff (ctx : Context) (ro : Nat) (oid : Nat)
    (fut : RTType) (bv : Bool) (nv : Int) (sv : String)
    (props : List (String × RTObject)) (arr : List RTObject)
    (cexpr : Bool) (csrcs : List Nat) (v : PropertyValue)
    (h : cloneObjectProperty ctx ro (.mk oid (.computedT fut) bv nv sv props arr cexpr csrcs)
           = .ok (some v)) :
    ((∃ u, v = .output u) ↔ (cexpr = false ∧ csrcs = [ro])) ∧
    (¬(cexpr = false ∧ csrcs = [ro]) → ∃ u deps, v = .computed u deps) := by
  rw [cloneComputed_eq] at h
  by_cases hc : (!cexpr && csrcs.length == 1 && csrcs.head? == some ro) = true
  · rw [if_pos hc] at h
    have hprop := (outprop_true_iff cexpr csrcs ro).mp hc
    cases hz : zeroPlaceholder fut with
    | none => simp only [hz, Except.bind] at h; cases h
    | some z =>
      simp only [hz, Except.bind, Except.ok.injEq, Option.some.injEq] at h
      subst h
      exact ⟨⟨fun _ => hprop, fun _ => ⟨z, rfl⟩⟩, fun hn => absurd hprop hn⟩
  · rw [if_neg hc] at h
    have hprop : ¬(cexpr = false ∧ csrcs = [ro]) :=
      fun hp => hc ((outprop_true_iff cexpr csrcs ro).mpr hp)
    cases hcol : collectURNs ctx ro csrcs with
    | error e => simp only [hcol, Except.map, Except.bind] at h; cases h
    | ok urns =>
      simp only [hcol, Except.map, Except.bind] at h
      cases hz : zeroPlaceholder fut with
      | none => simp only [hz] at h; cases h
      | some z =>
        simp only [hz, Except.ok.injEq, Option.some.injEq] at h
        subst h
        refine ⟨⟨fun ⟨u, hu⟩ => ?_, fun hp => absurd hp hprop⟩,
          fun _ => ⟨z, urns, rfl⟩⟩
        cases hu

/-- Witness for C2: an unresolved string attribute blocking only on the
owner clones to `Output(String(""))`, and the classification theorem applies
to it. -/
theorem computed_direct_property_output_iff_w :
    cloneObjectProperty ⟨[]⟩ 1 (.mk 3 (.computedT .stringT) false 0 "" [] [] false [1])
        = .ok (some (.output (.string ""))) ∧
    (((∃ u, PropertyValue.output (.string "") = .output u) ↔
        ((false : Bool) = false ∧ ([1] : List Nat) = [1])) ∧
      (¬((false : Bool) = false ∧ ([1] : List Nat) = [1]) →
        ∃ u deps, PropertyValue.output (.string "") = .computed u deps)) :=
  ⟨rfl, computed_direct_property_output_iff ⟨[]⟩ 1 3 .stringT false 0 "" [] [] false [1]
      (.output (.string "")) rfl⟩

/-- C3: for a computed value classified Computed (not an owner-only plain
attribute), a successful clone records exactly the context URNs of the
non-owner blocking sources, in source order with owner occurrences omitted,
and all of those sources must be mapped; if some non-owner source is
unmapped, the clone aborts with the missing-computed-reference assertion. -/
theorem computed_dependency_urns (ctx : Context) (ro : Nat) (oid : Nat)
    (fut : RTType) (bv : Bool) (nv : Int) (sv : String)
    (props : List (String × RTObject)) (arr : List RTObject)
    (cexpr : Bool) (csrcs : List Nat)
    (hnot : ¬(cexpr = false ∧ csrcs = [ro])) :
    (∀ v, cloneObjectProperty ctx ro (.mk oid (.computedT fut) bv nv sv props arr cexpr csrcs)
        = .ok (some v) →
      (∀ s ∈ csrcs, s ≠ ro → (ctx.lookupURN s).isSome) ∧
      ∃ u, v = .computed u ((csrcs.filter (fun s => s != ro)).filterMap ctx.lookupURN)) ∧
    (∀ s₀ ∈ csrcs, s₀ ≠ ro → ctx.lookupURN s₀ = none →
      ∃ s, cloneObjectProperty ctx ro (.mk oid (.computedT fut) bv nv sv props arr cexpr csrcs)
          = .error (.missingComputedRef ro s) ∧
        s ∈ csrcs ∧ s ≠ ro ∧ ctx.lookupURN s = none) := by
  have hc : ¬((!cexpr && csrcs.length == 1 && csrcs.head? == some ro) = true) :=
    fun hb => hnot ((outprop_true_iff cexpr csrcs ro).mp hb)
  constructor
  · intro v h
    rw [cloneComputed_eq, if_neg hc] at h
    cases hcol : collectURNs ctx ro csrcs with
    | error e => simp only [hcol, Except.map, Except.bind] at h; cases h
    | ok urns =>
      obtain ⟨hall, hurns⟩ := collectURNs_ok_inv ctx ro csrcs urns hcol
      simp only [hcol, Except.map, Except.bind] at h
      cases hz : zeroPlaceholder fut with
      | none => simp only [hz] at h; cases h
      | some z =>
        simp only [hz, Except.ok.injEq, Option.some.injEq] at h
        exact ⟨hall, z, by rw [← h, hurns]⟩
  · intro s₀ hs₀ hne hn
    obtain ⟨s, hs, hsr, hsn, hcol⟩ := collectURNs_missing ctx ro csrcs s₀ hs₀ hne hn
    refine ⟨s, ?_, hs, hsr, hsn⟩
    rw [cloneComputed_eq, if_neg hc, hcol]
    rfl

/-- Witness for C3: a computed value blocking on external resource 5
(stable name "c-1") and on the owner 1 itself; the theorem applies and the
recorded dependency list is the singleton `["c-1"]`. -/
theorem computed_dependency_urns_w :
    ¬((false : Bool) = false ∧ ([5, 1] : List Nat) = [1]) ∧
    ((∀ v, cloneObjectProperty ⟨[(5, "c-1")]⟩ 1
          (.mk 3 (.computedT .stringT) false 0 "" [] [] false [5, 1]) = .ok (some v) →
        (∀ s ∈ ([5, 1] : List Nat), s ≠ 1 →
          (Context.lookupURN ⟨[(5, "c-1")]⟩ s).isSome) ∧
        ∃ u, v = .computed u ((([5, 1] : List Nat).filter (fun s => s != 1)).filterMap
            (Context.lookupURN ⟨[(5, "c-1")]⟩))) ∧
      (∀ s₀ ∈ ([5, 1] : List Nat), s₀ ≠ 1 →
        Context.lookupURN ⟨[(5, "c-1")]⟩ s₀ = none →
        ∃ s, cloneObjectProperty ⟨[(5, "c-1")]⟩ 1
            (.mk 3 (.computedT .stringT) false 0 "" [] [] false [5, 1])
            = .error (.missingComputedRef 1 s) ∧
          s ∈ ([5, 1] : List Nat) ∧ s ≠ 1 ∧
          Context.lookupURN ⟨[(5, "c-1")]⟩ s = none)) :=
  ⟨by simp,
   computed_dependency_urns ⟨[(5, "c-1")]⟩ 1 3 .stringT false 0 "" [] [] false [5, 1]
     (by simp)⟩

/-- C4: a resource-typed value clones to a ResourceReference carrying the
context's URN when the entry is present, and aborts with the missing-object-
reference assertion when it is absent. -/
theorem resource_reference_lookup (ctx : Context) (ro : Nat) (obj : RTObject)
    (h : obj.ty = .classT true) :
    (∀ urn, ctx.lookupURN obj.oid = some urn →
      cloneObjectProperty ctx ro obj = .ok (some (.resource urn))) ∧
    (ctx.lookupURN obj.oid = none →
      cloneObjectProperty ctx ro obj = .error (.missingObjectRef obj.oid)) := by
  cases obj with
  | mk oid ty bv nv sv props arr ce cs =>
    simp only [RTObject.ty] at h
    subst h
    constructor
    · intro urn hu
      simp only [cloneObjectProperty, RTObject.oid] at *
      rw [hu]
    · intro hn
      simp only [cloneObjectProperty, RTObject.oid] at *
      rw [hn]

/-- Witness for C4: a resource object with identity 7 mapped to "urn-a". -/
theorem resource_reference_lookup_w :
    RTObject.ty (.mk 7 (.classT true) false 0 "" [] [] false []) = .classT true ∧
    ((∀ urn, Context.lookupURN ⟨[(7, "urn-a")]⟩
          (RTObject.oid (.mk 7 (.classT true) false 0 "" [] [] false [])) = some urn →
        cloneObjectProperty ⟨[(7, "urn-a")]⟩ 1
            (.mk 7 (.classT true) false 0 "" [] [] false [])
          = .ok (some (.resource urn))) ∧
      (Context.lookupURN ⟨[(7, "urn-a")]⟩
          (RTObject.oid (.mk 7 (.classT true) false 0 "" [] [] false [])) = none →
        cloneObjectProperty ⟨[(7, "urn-a")]⟩ 1
            (.mk 7 (.classT true) false 0 "" [] [] false [])
          = .error (.missingObjectRef
              (RTObject.oid (.mk 7 (.classT true) false 0 "" [] [] false []))))) :=
  ⟨rfl, resource_reference_lookup ⟨[(7, "urn-a")]⟩ 1
      (.mk 7 (.classT true) false 0 "" [] [] false []) rfl⟩

/-- C5: whenever the cloner wraps a computed value as Output or Computed,
the wrapped placeholder is the zero value of the eventual declared type:
Null, Bool(false), Number(0), String(""), an empty Array, or an empty
Object for object, dynamic and class types — never partial real data. -/
theorem computed_placeholder_zero_value (ctx : Context) (ro : Nat) (oid : Nat)
    (fut : RTType) (bv : Bool) (nv : Int) (sv : String)
    (props : List (String × RTObject)) (arr : List RTObject)
    (cexpr : Bool) (csrcs : List Nat) (u : PropertyValue)
    (h : cloneObjectProperty ctx ro (.mk oid (.computedT fut) bv nv sv props arr cexpr csrcs)
           = .ok (some (.output u)) ∨
         ∃ d, cloneObjectProperty ctx ro (.mk oid (.computedT fut) bv nv sv props arr cexpr csrcs)
           = .ok (some (.computed u d))) :
    (fut = .nullT → u = .null) ∧
    (fut = .boolT → u = .bool false) ∧
    (fut = .numberT → u = .number 0) ∧
    (fut = .stringT → u = .string "") ∧
    (fut = .objectT ∨ fut = .dynamicT → u = .object []) ∧
    (fut = .arrayT → u = .array []) ∧
    (∀ b, fut = .classT b → u = .object []) := by
  have hz := cloneComputed_underlying ctx ro oid fut bv nv sv props arr cexpr csrcs u h
  refine ⟨?_, ?_, ?_, ?_, ?_, ?_, ?_⟩
  · rintro rfl; simpa [zeroPlaceholder] using hz.symm
  · rintro rfl; simpa [zeroPlaceholder] using hz.symm
  · rintro rfl; simpa [zeroPlaceholder] using hz.symm
  · rintro rfl; simpa [zeroPlaceholder] using hz.symm
  · rintro (rfl | rfl) <;> simpa [zeroPlaceholder] using hz.symm
  · rintro rfl; simpa [zeroPlaceholder] using hz.symm
  · rintro b rfl; simpa [zeroPlaceholder] using hz.symm

/-- Witness for C5: the owner-only unresolved string attribute wraps
`String("")`, and the zero-value theorem applies to it. -/
theorem computed_placeholder_zero_value_w :
    (cloneObjectProperty ⟨[]⟩ 1 (.mk 3 (.computedT .stringT) false 0 "" [] [] false [1])
        = .ok (some (.output (.string ""))) ∨
      ∃ d, cloneObjectProperty ⟨[]⟩ 1 (.mk 3 (.computedT .stringT) false 0 "" [] [] false [1])
        = .ok (some (.computed (.string "") d))) ∧
    ((RTType.stringT = .nullT → PropertyValue.string "" = .null) ∧
      (RTType.stringT = .boolT → PropertyValue.string "" = .bool false) ∧
      (RTType.stringT = .numberT → PropertyValue.string "" = .number 0) ∧
      (RTType.stringT = .stringT → PropertyValue.string "" = .string "") ∧
      (RTType.stringT = .objectT ∨ RTType.stringT = .dynamicT →
        PropertyValue.string "" = .object []) ∧
      (RTType.stringT = .arrayT → PropertyValue.string "" = .array []) ∧
      (∀ b, RTType.stringT = .classT b → PropertyValue.string "" = .object [])) :=
  ⟨Or.inl rfl,
   computed_placeholder_zero_value ⟨[]⟩ 1 3 .stringT false 0 "" [] [] false [1]
     (.string "") (Or.inl rfl)⟩

/-- C6: cloning a property map with distinct keys (as Go map keys are)
omits every function-typed key without error, keeps every representable key
with its serialized value (in particular bool and string keys with the
matching variant), and emits keys in the source container's stable order
(the result keys are a sublist of the source keys). -/
theorem clonedMap_function_keys_omitted (ctx : Context) (ro : Nat)
    (props : List (String × RTObject)) (m : List (String × PropertyValue))
    (hnd : (props.map Prod.fst).Nodup)
    (h : cloneObjectProperties ctx ro props = .ok m) :
    (∀ k o, (k, o) ∈ props → o.ty = .functionT → k ∉ m.map Prod.fst) ∧
    (∀ k o v, (k, o) ∈ props → cloneObjectProperty ctx ro o = .ok (some v) → (k, v) ∈ m) ∧
    (∀ k o, (k, o) ∈ props → o.ty = .boolT → (k, .bool o.bval) ∈ m) ∧
    (∀ k o, (k, o) ∈ props → o.ty = .stringT → (k, .string o.sval) ∈ m) ∧
    List.Sublist (m.map Prod.fst) (props.map Prod.fst) :=
  ⟨fun k o hmem hfn => cloneProps_fn_absent ctx ro props m k o hnd hmem hfn h,
   fun k o v hmem hv => cloneProps_mem ctx ro props m k o v hmem hv h,
   fun k o hmem hb =>
     cloneProps_mem ctx ro props m k o _ hmem (cloneObjectProperty_bool ctx ro o hb) h,
   fun k o hmem hs =>
     cloneProps_mem ctx ro props m k o _ hmem (cloneObjectProperty_string ctx ro o hs) h,
   cloneProps_keys_sublist ctx ro props m h⟩

/-- Witness for C6: a three-key map whose middle key holds a function
clones to the two-key map with the function key absent, and the theorem
applies to it. -/
theorem clonedMap_function_keys_omitted_w :
    ([("a", RTObject.mk 21 .boolT true 0 "" [] [] false []),
       ("f", RTObject.mk 22 .functionT false 0 "" [] [] false []),
       ("s", RTObject.mk 23 .stringT false 0 "x" [] [] false [])].map Prod.fst).Nodup ∧
    cloneObjectProperties ⟨[]⟩ 1
        [("a", RTObject.mk 21 .boolT true 0 "" [] [] false []),
         ("f", RTObject.mk 22 .functionT false 0 "" [] [] false []),
         ("s", RTObject.mk 23 .stringT false 0 "x" [] [] false [])]
      = .ok [("a", PropertyValue.bool true), ("s", PropertyValue.string "x")] ∧
    ((∀ k o,
        (k, o) ∈ [("a", RTObject.mk 21 .boolT true 0 "" [] [] false []),
          ("f", RTObject.mk 22 .functionT false 0 "" [] [] false []),
          ("s", RTObject.mk 23 .stringT false 0 "x" [] [] false [])] →
        o.ty = .functionT →
        k ∉ ([("a", PropertyValue.bool true),
          ("s", PropertyValue.string "x")].map Prod.fst)) ∧
      (∀ k o v,
        (k, o) ∈ [("a", RTObject.mk 21 .boolT true 0 "" [] [] false []),
          ("f", RTObject.mk 22 .functionT false 0 "" [] [] false []),
          ("s", RTObject.mk 23 .stringT false 0 "x" [] [] false [])] →
        cloneObjectProperty ⟨[]⟩ 1 o = .ok (some v) →
        (k, v) ∈ [("a", PropertyValue.bool true), ("s", PropertyValue.string "x")]) ∧
      (∀ k o,
        (k, o) ∈ [("a", RTObject.mk 21 .boolT true 0 "" [] [] false []),
          ("f", RTObject.mk 22 .functionT false 0 "" [] [] false []),
          ("s", RTObject.mk 23 .stringT false 0 "x" [] [] false [])] →
        o.ty = .boolT →
        (k, PropertyValue.bool o.bval) ∈
          [("a", PropertyValue.bool true), ("s", PropertyValue.string "x")]) ∧
      (∀ k o,
        (k, o) ∈ [("a", RTObject.mk 21 .boolT true 0 "" [] [] false []),
          ("f", RTObject.mk 22 .functionT false 0 "" [] [] false []),
          ("s", RTObject.mk 23 .stringT false 0 "x" [] [] false [])] →
        o.ty = .stringT →
        (k, PropertyValue.string o.sval) ∈
          [("a", PropertyValue.bool true), ("s", PropertyValue.string "x")]) ∧
      List.Sublist
        ([("a", PropertyValue.bool true), ("s", PropertyValue.string "x")].map Prod.fst)
        ([("a", RTObject.mk 21 .boolT true 0 "" [] [] false []),
          ("f", RTObject.mk 22 .functionT false 0 "" [] [] false []),
          ("s", RTObject.mk 23 .stringT false 0 "x" [] [] false [])].map Prod.fst)) :=
  ⟨by decide, rfl,
   clonedMap_function_keys_omitted ⟨[]⟩ 1
     [("a", RTObject.mk 21 .boolT true 0 "" [] [] false []),
      ("f", RTObject.mk 22 .functionT false 0 "" [] [] false []),
      ("s", RTObject.mk 23 .stringT false 0 "x" [] [] false [])]
     [("a", PropertyValue.bool true), ("s", PropertyValue.string "x")]
     (by decide) rfl⟩

/-- C7: cloning an array drops a function-typed element without error while
keeping the other elements in order (removing the element from the source
array does not change the result), and the array `[1, <function>, 3]`
clones exactly to `Array [Number 1, Number 3]` of length 2. -/
theorem array_clone_drops_functions (ctx : Context) (ro : Nat) (oid : Nat)
    (bv : Bool) (nv : Int) (sv : String) (props : List (String × RTObject))
    (ce : Bool) (cs : List Nat) (el₁ el₂ : List RTObject) (fobj : RTObject)
    (hf : fobj.ty = .functionT) :
    cloneObjectProperty ctx ro (.mk oid .arrayT bv nv sv props (el₁ ++ fobj :: el₂) ce cs)
      = cloneObjectProperty ctx ro (.mk oid .arrayT bv nv sv props (el₁ ++ el₂) ce cs) ∧
    cloneObjectProperty ⟨[]⟩ 0
        (.mk 10 .arrayT false 0 "" []
          [.mk 11 .numberT false 1 "" [] [] false [],
           .mk 12 .functionT false 0 "" [] [] false [],
           .mk 13 .numberT false 3 "" [] [] false []] false [])
      = .ok (some (.array [.number 1, .number 3])) := by
  constructor
  · simp only [cloneObjectProperty, cloneArrayElems_fn ctx oid el₁ el₂ fobj hf]
  · rfl

/-- Witness for C7: the function element of `[1, <function>, 3]` can be
removed without changing the clone, and the concrete result is
`[Number 1, Number 3]`. -/
theorem array_clone_drops_functions_w :
    RTObject.ty (.mk 12 .functionT false 0 "" [] [] false []) = .functionT ∧
    (cloneObjectProperty ⟨[]⟩ 0
        (.mk 10 .arrayT false 0 "" []
          ([RTObject.mk 11 .numberT false 1 "" [] [] false []] ++
            (RTObject.mk 12 .functionT false 0 "" [] [] false []) ::
              [RTObject.mk 13 .numberT false 3 "" [] [] false []]) false [])
      = cloneObjectProperty ⟨[]⟩ 0
        (.mk 10 .arrayT false 0 "" []
          ([RTObject.mk 11 .numberT false 1 "" [] [] false []] ++
            [RTObject.mk 13 .numberT false 3 "" [] [] false []]) false []) ∧
     cloneObjectProperty ⟨[]⟩ 0
        (.mk 10 .arrayT false 0 "" []
          [RTObject.mk 11 .numberT false 1 "" [] [] false [],
           RTObject.mk 12 .functionT false 0 "" [] [] false [],
           RTObject.mk 13 .numberT false 3 "" [] [] false []] false [])
      = .ok (some (.array [.number 1, .number 3]))) :=
  ⟨rfl, array_clone_drops_functions ⟨[]⟩ 0 10 false 0 "" [] false []
     [RTObject.mk 11 .numberT false 1 "" [] [] false []]
     [RTObject.mk 13 .numberT false 3 "" [] [] false []]
     (RTObject.mk 12 .functionT false 0 "" [] [] false []) rfl⟩

/-- C8: a computed value whose eventual element type is a map type is never
serialized: whenever classification succeeds (owner-only output property, or
all non-owner sources mapped) the clone aborts with the unrecognized-type
assertion reporting the computed type, and it never returns a value in any
case; a plain (non-computed) map-typed value, by contrast, clones to an
Object of its cloned properties. -/
theorem computed_map_element_unrecognized (ctx : Context) (ro : Nat) (oid : Nat)
    (bv : Bool) (nv : Int) (sv : String) (props : List (String × RTObject))
    (arr : List RTObject) (cexpr : Bool) (csrcs : List Nat) :
    (((cexpr = false ∧ csrcs = [ro]) ∨ (∀ s ∈ csrcs, s ≠ ro → (ctx.lookupURN s).isSome)) →
      cloneObjectProperty ctx ro (.mk oid (.computedT .mapT) bv nv sv props arr cexpr csrcs)
        = .error (.unrecognizedType (.computedT .mapT))) ∧
    (∀ r, cloneObjectProperty ctx ro (.mk oid (.computedT .mapT) bv nv sv props arr cexpr csrcs)
        ≠ .ok r) ∧
    (∀ m, cloneObjectProperties ctx ro props = .ok m →
      cloneObjectProperty ctx ro (.mk oid .mapT bv nv sv props arr cexpr csrcs)
        = .ok (some (.object m))) := by
  refine ⟨?_, ?_, ?_⟩
  · rintro (hp | hall)
    · rw [cloneComputed_eq, if_pos ((outprop_true_iff cexpr csrcs ro).mpr hp)]
      rfl
    · by_cases hc : (!cexpr && csrcs.length == 1 && csrcs.head? == some ro) = true
      · rw [cloneComputed_eq, if_pos hc]; rfl
      · rw [cloneComputed_eq, if_neg hc, collectURNs_all_present ctx ro csrcs hall]
        rfl
  · intro r h
    rw [cloneComputed_eq] at h
    by_cases hc : (!cexpr && csrcs.length == 1 && csrcs.head? == some ro) = true
    · rw [if_pos hc] at h; cases h
    · rw [if_neg hc] at h
      cases hcol : collectURNs ctx ro csrcs with
      | error e => simp only [hcol, Except.map, Except.bind] at h; cases h
      | ok urns =>
        simp only [hcol, Except.map, Except.bind, zeroPlaceholder] at h
        cases h
  · intro m h
    simp only [cloneObjectProperty, h, Except.map]

/-- Witness for C8: a computed value with eventual map type aborts with the
unrecognized-type assertion, while the plain map-typed value clones to an
empty Object. -/
theorem computed_map_element_unrecognized_w :
    cloneObjectProperty ⟨[]⟩ 0 (.mk 4 (.computedT .mapT) false 0 "" [] [] false [0])
      = .error (.unrecognizedType (.computedT .mapT)) ∧
    cloneObjectProperty ⟨[]⟩ 0 (.mk 4 .mapT false 0 "" [] [] false [0])
      = .ok (some (.object [])) :=
  ⟨(computed_map_element_unrecognized ⟨[]⟩ 0 4 false 0 "" [] [] false [0]).1
     (Or.inl ⟨rfl, rfl⟩),
   (computed_map_element_unrecognized ⟨[]⟩ 0 4 false 0 "" [] [] false [0]).2.2 [] rfl⟩

/-- C9: `SetID` and `SetURN` each succeed exactly when the corresponding
field is unassigned (setting it to the given value and leaving every other
field unchanged) and fail with the already-assigned error otherwise; after a
successful assignment of a non-empty value a second call on the same field
fails, and each setter is independent of the other field. -/
theorem set_identity_once (r : resource) (idv urnv : String) :
    (r.id = "" → r.SetID idv = .ok { r with id := idv }) ∧
    (r.id ≠ "" → r.SetID idv = .error .alreadyAssigned) ∧
    (r.urn = "" → r.SetURN urnv = .ok { r with urn := urnv }) ∧
    (r.urn ≠ "" → r.SetURN urnv = .error .alreadyAssigned) ∧
    (∀ r', r.SetID idv = .ok r' → r' = { r with id := idv }) ∧
    (∀ r', r.SetURN urnv = .ok r' → r' = { r with urn := urnv }) ∧
    (idv ≠ "" → ∀ r' w, r.SetID idv = .ok r' → r'.SetID w = .error .alreadyAssigned) ∧
    (urnv ≠ "" → ∀ r' w, r.SetURN urnv = .ok r' → r'.SetURN w = .error .alreadyAssigned) := by
  refine ⟨?_, ?_, ?_, ?_, ?_, ?_, ?_, ?_⟩
  · intro h; simp [resource.SetID, resource.HasID, h]
  · intro h; simp [resource.SetID, resource.HasID, h]
  · intro h; simp [resource.SetURN, resource.HasURN, h]
  · intro h; simp [resource.SetURN, resource.HasURN, h]
  · intro r' h
    by_cases hid : r.id = ""
    · simp [resource.SetID, resource.HasID, hid] at h
      exact h.symm
    · simp [resource.SetID, resource.HasID, hid] at h
  · intro r' h
    by_cases hurn : r.urn = ""
    · simp [resource.SetURN, resource.HasURN, hurn] at h
      exact h.symm
    · simp [resource.SetURN, resource.HasURN, hurn] at h
  · intro hne r' w h
    by_cases hid : r.id = ""
    · simp [resource.SetID, resource.HasID, hid] at h
      simp [resource.SetID, resource.HasID, ← h, hne]
    · simp [resource.SetID, resource.HasID, hid] at h
  · intro hne r' w h
    by_cases hurn : r.urn = ""
    · simp [resource.SetURN, resource.HasURN, hurn] at h
      simp [resource.SetURN, resource.HasURN, ← h, hne]
    · simp [resource.SetURN, resource.HasURN, hurn] at h

/-- Witness for C9: assigning an ID to a fresh resource succeeds, a second
assignment fails, and assigning the URN afterwards still succeeds. -/
theorem set_identity_once_w :
    resource.SetID ⟨"", "", "t", [], []⟩ "x" = .ok ⟨"x", "", "t", [], []⟩ ∧
    resource.SetID ⟨"x", "", "t", [], []⟩ "y" = .error .alreadyAssigned ∧
    resource.SetURN ⟨"x", "", "t", [], []⟩ "u-1" = .ok ⟨"x", "u-1", "t", [], []⟩ :=
  ⟨(set_identity_once ⟨"", "", "t", [], []⟩ "x" "u").1 rfl,
   (set_identity_once ⟨"x", "", "t", [], []⟩ "y" "u").2.1 (by simp),
   (set_identity_once ⟨"x", "", "t", [], []⟩ "y" "u-1").2.2.1 rfl⟩

/-- Hex encoding yields two characters per byte. -/
lemma hexEncodeToString_length (bs : List Nat) :
    (hexEncodeToString bs).length = 2 * bs.length := by
  induction bs with
  | nil => rfl
  | cons b rest ih => simp only [hexEncodeToString, List.length_cons, ih]; omega

/-- The generated identifier's length is the untruncated length capped at
`maxlen`. -/
lemma NewUniqueHex_len (pfx : List Char) (bs : List Nat) (maxlen : Nat) :
    (NewUniqueHex pfx bs maxlen).length = min (pfx.length + 2 * bs.length) maxlen := by
  simp only [NewUniqueHex]
  by_cases h : (pfx ++ hexEncodeToString bs).length > maxlen
  · rw [if_pos h]
    simp only [List.length_take, List.length_append, hexEncodeToString_length] at *
    omega
  · rw [if_neg h]
    simp only [List.length_append, hexEncodeToString_length] at *
    omega

/-- C10: `NewUniqueHex` returns the prefix followed by the hex encoding of
the random bytes, truncated to `maxlen` only when longer, so its length is
`min (pfx.length + 2 * randlen) maxlen` regardless of the bytes drawn; in
particular with prefix "r-", 8 random bytes and `maxlen = 6` the result
always has length exactly 6. -/
theorem NewUniqueHex_length_spec (pfx : List Char) (bs : List Nat)
    (maxlen randlen : Nat) (h : bs.length = randlen) :
    (NewUniqueHex pfx bs maxlen).length = min (pfx.length + 2 * randlen) maxlen ∧
    (pfx.length + 2 * randlen ≤ maxlen →
      NewUniqueHex pfx bs maxlen = pfx ++ hexEncodeToString bs) ∧
    (maxlen < pfx.length + 2 * randlen →
      NewUniqueHex pfx bs maxlen = (pfx ++ hexEncodeToString bs).take maxlen) ∧
    (∀ bs' : List Nat, bs'.length = 8 →
      (NewUniqueHex ['r', '-'] bs' 6).length = 6) := by
  subst h
  refine ⟨NewUniqueHex_len pfx bs maxlen, ?_, ?_, ?_⟩
  · intro hle
    simp only [NewUniqueHex]
    rw [if_neg]
    simp only [List.length_append, hexEncodeToString_length]
    omega
  · intro hlt
    simp only [NewUniqueHex]
    rw [if_pos]
    simp only [List.length_append, hexEncodeToString_length]
    omega
  · intro bs' h8
    rw [NewUniqueHex_len, h8]
    rfl

/-- Witness for C10: eight zero bytes with prefix "r-" and `maxlen = 6`. -/
theorem NewUniqueHex_length_spec_w :
    ([0, 0, 0, 0, 0, 0, 0, 0] : List Nat).length = 8 ∧
    ((NewUniqueHex ['r', '-'] [0, 0, 0, 0, 0, 0, 0, 0] 6).length
        = min (['r', '-'].length + 2 * 8) 6 ∧
      (['r', '-'].length + 2 * 8 ≤ 6 →
        NewUniqueHex ['r', '-'] [0, 0, 0, 0, 0, 0, 0, 0] 6
          = ['r', '-'] ++ hexEncodeToString [0, 0, 0, 0, 0, 0, 0, 0]) ∧
      (6 < ['r', '-'].length + 2 * 8 →
        NewUniqueHex ['r', '-'] [0, 0, 0, 0, 0, 0, 0, 0] 6
          = (['r', '-'] ++ hexEncodeToString [0, 0, 0, 0, 0, 0, 0, 0]).take 6) ∧
      (∀ bs' : List Nat, bs'.length = 8 →
        (NewUniqueHex ['r', '-'] bs' 6).length = 6)) :=
  ⟨rfl, NewUniqueHex_length_spec ['r', '-'] [0, 0, 0, 0, 0, 0, 0, 0] 6 8 rfl⟩
